import Mathlib

/-!
Verification of the praetor / praetorsd service-registration core.

This file shallowly embeds the parts of the source that the claims are
about:

* the `Status` enumeration and `State` value type (state.go and its
  stringer output), together with the Go zero value;
* single-service definition construction and validation
  (`newServiceRegistration`, `parseCheckTTL` in serviceDefinition.go);
* the per-service registrar state machine (`Register` / `Deregister`)
  with its retry loop, modelled against an explicit schedule of remote
  capability outcomes and context-cancellation observations;
* the TTL heartbeat loop (`ttl.run` in ttl.go) as a trace function over
  a cancellation schedule;
* the `Registrars` aggregate factory (`NewRegistrars`), including the
  nil-receiver dereference it performs;
* TTL jitter validation and the jittered-interval computation
  (`WithTTLJitter`, `registrarCheck.nextTimer` in registrar.go), with
  float64 values modelled as exact rationals.

Go machine integers are modelled as `Int` (`time.Duration` is int64
nanoseconds; none of the verified paths can overflow), Go errors as
`Option String` / `Except String`, and Go panics via an explicit
`PanicOr` result type.
-/

namespace Praetor

/-! ## Status and State (state.go, stringer output) -/

/-- Status models the Go type `Status int`. -/
abbrev Status := Int

/-- Any is the wildcard status, iota value 0. -/
def Any : Status := 0

/-- Passing is iota value 1. -/
def Passing : Status := 1

/-- Warning is iota value 2. -/
def Warning : Status := 2

/-- Critical is iota value 3. -/
def Critical : Status := 3

/-- Maintenance is iota value 4. -/
def Maintenance : Status := 4

/-- statusNames lists the slices of the stringer table
"anypassingwarningcriticalmaintenance" at offsets 0, 3, 10, 17, 25, 36. -/
def statusNames : List String :=
  ["any", "passing", "warning", "critical", "maintenance"]

/-- statusString embeds the stringer-generated
`func (i Status) String() string`: out-of-range values render as
"Status(i)", in-range values index the name table. -/
def statusString (i : Status) : String :=
  if i < 0 ∨ 5 ≤ i then "Status(" ++ toString i ++ ")"
  else statusNames.getD i.toNat ""

/-- State embeds `type State struct { Output string; Status Status }`. -/
structure State where
  Output : String
  Status : Status
deriving DecidableEq

/-- The Go zero value of State: empty Output and Status 0. -/
def State.zero : State := { Output := "", Status := 0 }

/-! ## Consul registration payloads (the fields the core reads) -/

/-- AgentServiceCheck models the fields of `api.AgentServiceCheck` that
the core reads: CheckID, Name and the TTL duration string. All other
fields are opaque pass-through payload. -/
structure AgentServiceCheck where
  CheckID : String
  Name : String
  TTL : String
deriving DecidableEq

/-- AgentServiceRegistration models the fields of
`api.AgentServiceRegistration` that the core reads: ID, Name, the
optional single Check and the Checks slice. -/
structure AgentServiceRegistration where
  ID : String
  Name : String
  Check : Option AgentServiceCheck
  Checks : List AgentServiceCheck
deriving DecidableEq

/-- serviceIDOf embeds `serviceIDOf`: the explicit ID, or the Name when
the ID is empty. -/
def serviceIDOf (reg : AgentServiceRegistration) : String :=
  if reg.ID = "" then reg.Name else reg.ID

/-- checkIDOf embeds `checkIDOf`: the explicit CheckID, or the Name when
the CheckID is empty. -/
def checkIDOf (c : AgentServiceCheck) : String :=
  if c.CheckID = "" then c.Name else c.CheckID

/-- parseCheckTTL embeds `parseCheckTTL`: an empty TTL field yields a
zero duration and no error; otherwise the string is handed to Go's
`time.ParseDuration`, which is external to this repository and is
therefore a parameter `pd` (none models a parse error, `some d` a
parsed duration of `d` nanoseconds). -/
def parseCheckTTL (pd : String → Option Int) (c : AgentServiceCheck) : Option Int :=
  if c.TTL = "" then some 0 else pd c.TTL

/-! ## Single service definition construction (serviceDefinition.go) -/

/-- DefError tags the distinct validation errors produced by
`newServiceRegistration` (the Go code uses `errors.New` / `fmt.Errorf`
messages; only the identity of each error matters here). -/
inductive DefError where
  | missingServiceID
  | invalidTTL (ttl : String)
  | negativeTTL
  | ttlRequiresID
  | duplicateCheckID (id : String)
deriving DecidableEq

/-- ttlDefinition embeds the Go struct of the same name: the check id
and the heartbeat interval in nanoseconds (updateOptions are opaque). -/
structure ttlDefinition where
  id : String
  interval : Int
deriving DecidableEq

/-- serviceDefinition embeds the Go struct of the same name, restricted
to the fields the claims are about: the derived ServiceID, the set of
explicitly assigned check ids (insertion-ordered list; the Go map is
used only for membership) and the TTL definitions. The opaque
registration payload and register options are not modelled. -/
structure serviceDefinition where
  id : String
  checkIDs : List String
  ttls : List ttlDefinition
deriving DecidableEq

/-- addCheckID embeds `checkIDSet.add`: a duplicate id is reported and
not inserted; a fresh id is inserted. -/
def addCheckID (ids : List String) (id : String) : List String × List DefError :=
  if id ∈ ids then (ids, [DefError.duplicateCheckID id])
  else (ids ++ [id], [])

/-- checkStep is the body of the check loop in `newServiceRegistration`,
processing one check against the accumulated definition and error list.
The cases are in the source's order: TTL parse error; negative
interval; id-less non-TTL check skipped; id-less TTL check rejected;
default (record the id, and the TTL definition when the interval is
positive). -/
def checkStep (pd : String → Option Int) (acc : serviceDefinition × List DefError)
    (c : AgentServiceCheck) : serviceDefinition × List DefError :=
  match parseCheckTTL pd c with
  | none => (acc.1, acc.2 ++ [DefError.invalidTTL c.TTL])
  | some interval =>
    if interval < 0 then (acc.1, acc.2 ++ [DefError.negativeTTL])
    else if checkIDOf c = "" ∧ interval = 0 then acc
    else if checkIDOf c = "" ∧ 0 < interval then
      (acc.1, acc.2 ++ [DefError.ttlRequiresID])
    else
      ({ acc.1 with
          checkIDs := (addCheckID acc.1.checkIDs (checkIDOf c)).1,
          ttls :=
            if 0 < interval then acc.1.ttls ++ [⟨checkIDOf c, interval⟩]
            else acc.1.ttls },
       acc.2 ++ (addCheckID acc.1.checkIDs (checkIDOf c)).2)

/-- regChecks embeds `serviceDefinition.checks()`: the single Check
first (when present), then the Checks slice. -/
def regChecks (reg : AgentServiceRegistration) : List AgentServiceCheck :=
  (match reg.Check with
   | some c => [c]
   | none => []) ++ reg.Checks

/-- newServiceRegistration embeds the Go function of the same name
(options are not modelled: no claim applies a ServiceDefinitionOption,
and `WithRegisterOptions` never returns an error). It returns the built
definition together with the accumulated error list; the build succeeds
exactly when that list is empty. -/
def newServiceRegistration (pd : String → Option Int) (reg : AgentServiceRegistration) :
    serviceDefinition × List DefError :=
  (regChecks reg).foldl (checkStep pd)
    ({ id := serviceIDOf reg, checkIDs := [], ttls := [] },
     if serviceIDOf reg = "" then [DefError.missingServiceID] else [])

/-- nonEmptyCIDs collects the non-empty derived check ids of a check
list, in order. -/
def nonEmptyCIDs (cs : List AgentServiceCheck) : List String :=
  (cs.map checkIDOf).filter (fun s => s ≠ "")

/-- goodCheck is the per-check validity predicate of the source: the
TTL parses, is non-negative, and a positive interval forces a non-empty
derived check id. -/
def goodCheck (pd : String → Option Int) (c : AgentServiceCheck) : Bool :=
  match parseCheckTTL pd c with
  | none => false
  | some d => decide (0 ≤ d ∧ (0 < d → checkIDOf c ≠ ""))

/-- ttlOf gives the TTL definition a single check contributes: one is
produced exactly when the TTL parses to a positive interval and the
derived check id is non-empty. -/
def ttlOf (pd : String → Option Int) (c : AgentServiceCheck) : Option ttlDefinition :=
  match parseCheckTTL pd c with
  | none => none
  | some d =>
    if 0 < d ∧ checkIDOf c ≠ "" then some ⟨checkIDOf c, d⟩ else none

/-- samplePD is a concrete instantiation of `time.ParseDuration` used
by witnesses and counterexamples; it agrees with Go's parser on exactly
these inputs ("0s" parses to 0ns, "5s" to 5e9 ns, "-5s" to -5e9 ns,
"bogus" fails, and the remaining inputs here are never consulted). -/
def samplePD : String → Option Int := fun s =>
  if s = "0s" then some 0
  else if s = "5s" then some 5000000000
  else if s = "-5s" then some (-5000000000)
  else none

/-! ## The per-service registrar state machine (part_010) -/

/-- ErrRegistrarRegistered is the sentinel returned by a second Register. -/
def ErrRegistrarRegistered : String := "that registrar has already been registered"

/-- ErrRegistrarDeregistered is the sentinel returned by a second Deregister. -/
def ErrRegistrarDeregistered : String := "that registrar has already been deregistered"

/-- DefaultRegisterRetry is 10s in nanoseconds. -/
def DefaultRegisterRetry : Int := 10000000000

/-- normalizeRegisterRetry embeds the default applied in `newRegistrar`:
a configured retry below 1ns is replaced by DefaultRegisterRetry. -/
def normalizeRegisterRetry (d : Int) : Int :=
  if d < 1 then DefaultRegisterRetry else d

/-- registrar models the Go `registrar` struct: the current health
state (the stateAccessor's value), the owned service definition, the
retry interval, and whether the service is registered (`ttlCancel` is
non-nil exactly in the registered state). The remote capabilities are
supplied per call as outcome schedules. -/
structure registrar where
  health : State
  sdef : serviceDefinition
  registerRetry : Int
  registered : Bool
deriving DecidableEq

/-- newRegistrar embeds the Go constructor: it fails when any of the
three agent capabilities is missing, applies the retry default, and
defaults the initial health state to Passing when no WithInitialState
option was given. The effect of the options is passed as parameters. -/
def newRegistrar (sdef : serviceDefinition) (registerRetry : Int)
    (hasAgent : Bool) (initial : Option State) : Except String registrar :=
  if !hasAgent then Except.error "no agent supplied"
  else Except.ok
    { health := initial.getD { Output := "", Status := Passing }
      sdef := sdef
      registerRetry := normalizeRegisterRetry registerRetry
      registered := false }

/-- RegOutcome is the outcome of the registration retry loop, carrying
the number of remote Register invocations made. -/
inductive RegOutcome where
  | ok (calls : Nat)
  | cancelled (e : String) (calls : Nat)
deriving DecidableEq

/-- registerLoop embeds the retry loop of `registrar.Register`:
`attempt k` is the outcome of the k-th remote Register invocation
(none = success), and `ctxDone k` tells whether, in the select after
the k-th failed attempt, the context-done branch is taken (it can only
be taken once the caller's context is cancelled; the timer branch
models the retry wait elapsing). The fuel bounds the unrolling; none
means the loop is still running — the source has no attempt limit. -/
def registerLoop (attempt : Nat → Option String) (ctxDone : Nat → Bool) :
    Nat → Nat → Option RegOutcome
  | 0, _ => none
  | fuel + 1, k =>
    match attempt k with
    | none => some (RegOutcome.ok (k + 1))
    | some e =>
      if ctxDone k then some (RegOutcome.cancelled e (k + 1))
      else registerLoop attempt ctxDone fuel (k + 1)

/-- registrar.register embeds `registrar.Register`: an already
registered registrar fails immediately with no remote call; otherwise
the retry loop runs, and on success one heartbeat task per TTL
definition is spawned and the state becomes registered. The result is
`some (returned error, updated registrar, spawned heartbeat tasks,
remote Register invocations)`; none means the loop is still retrying
within the given fuel. -/
def registrar.register (r : registrar) (attempt : Nat → Option String)
    (ctxDone : Nat → Bool) (fuel : Nat) :
    Option (Option String × registrar × Nat × Nat) :=
  if r.registered then some (some ErrRegistrarRegistered, r, 0, 0)
  else
    match registerLoop attempt ctxDone fuel 0 with
    | none => none
    | some (RegOutcome.ok n) =>
      some (none, { r with registered := true }, r.sdef.ttls.length, n)
    | some (RegOutcome.cancelled e n) => some (some e, r, 0, n)

/-- DeregEvent records the observable actions of `registrar.Deregister`
in order: cancelling the heartbeat context, then the single remote
Deregister invocation. -/
inductive DeregEvent where
  | cancelTTLs
  | remoteDeregister
deriving DecidableEq, BEq

/-- registrar.deregister embeds `registrar.Deregister`: an already
deregistered registrar fails immediately with no remote call and no
events; otherwise the heartbeat context is cancelled, the state becomes
unregistered, and the single remote call's error (`remote`) is returned
as is. -/
def registrar.deregister (r : registrar) (remote : Option String) :
    Option String × registrar × List DeregEvent :=
  if r.registered then
    (remote, { r with registered := false },
     [DeregEvent.cancelTTLs, DeregEvent.remoteDeregister])
  else (some ErrRegistrarDeregistered, r, [])

/-! ## The Registrars aggregate factory (registrars.go) -/

/-- Definitions embeds the `Definitions` bundle: a list of service
definitions. -/
structure Definitions where
  services : List serviceDefinition

/-- Definitions.len embeds `func (r *Definitions) len() int`. -/
def Definitions.len (d : Definitions) : Nat := d.services.length

/-- PanicOr is the result of a Go computation that can panic. -/
inductive PanicOr (α : Type) where
  | panic (msg : String)
  | ok (val : α)

/-- nilDerefMsg is the Go runtime's nil-dereference panic message. -/
def nilDerefMsg : String :=
  "runtime error: invalid memory address or nil pointer dereference"

/-- lenPtrCall models the call `definitions.len()` on a possibly nil
`*Definitions` receiver: `len` reads `r.services`, so a nil receiver
panics. -/
def lenPtrCall : Option Definitions → PanicOr Nat
  | none => PanicOr.panic nilDerefMsg
  | some d => PanicOr.ok d.len

/-- NewRegistrars embeds `NewRegistrars(definitions, opts...)`. The
per-definition constructor with the options already applied is the
parameter `newReg`. The source first evaluates `definitions.len()` to
size the backing slice and only then guards `definitions != nil`, so a
nil bundle is dereferenced before the guard is reached. A constructor
error aborts with that error (`Except.error`); otherwise the collected
registrars are returned. -/
def NewRegistrars (newReg : serviceDefinition → Except String registrar)
    (definitions : Option Definitions) :
    PanicOr (Except String (List registrar)) :=
  match lenPtrCall definitions with
  | PanicOr.panic m => PanicOr.panic m
  | PanicOr.ok _cap =>
    match definitions with
    | none => PanicOr.ok (Except.ok [])
    | some defs => PanicOr.ok (defs.services.mapM newReg)

/-! ## The heartbeat loop (ttl.go) -/

/-- ttlRun is the trace of `ttl.run` against a cancellation schedule.
The goroutine's primitive steps are numbered: iteration k issues its
unconditional `t.update` (an UpdateTTLOpts invocation) at step 3k,
checks `ctx.Err()` at step 3k+1, and resolves its select at step 3k+2.
`cancelled t` tells whether the context is cancelled by step t;
`selDone k` tells whether, when the context is cancelled at the k-th
select, the done branch is delivered (the timer branch remains possible
because the timer may fire concurrently). The returned list holds one
entry per issued update: the cancellation status at the moment the
update was issued. Fuel bounds the unrolling; an un-cancelled loop runs
forever. -/
def ttlRun (cancelled : Nat → Bool) (selDone : Nat → Bool) :
    Nat → Nat → List Bool
  | 0, _ => []
  | fuel + 1, k =>
    cancelled (3 * k) ::
      (if cancelled (3 * k + 1) then []
       else if cancelled (3 * k + 2) && selDone k then []
       else ttlRun cancelled selDone fuel (k + 1))

/-! ## TTL jitter (praetorsd/registrar.go) -/

/-- ErrRegistrarJitter is the invalid-jitter sentinel. -/
def ErrRegistrarJitter : String :=
  "a TTL jitter must be in the half open range [0.0, 1.0)"

/-- GoFloat models a Go float64 for the jitter comparisons: either NaN
or a numeric value whose comparisons agree with its exact rational
value (every non-NaN float64 compares like a real number; the
infinities behave like rationals outside [0, 1) for the comparisons
used here, so `val` also covers them). -/
inductive GoFloat where
  | nan
  | val (q : Rat)
deriving DecidableEq

/-- GoFloat.lt is Go's `<` on float64: false whenever either operand is
NaN. -/
def GoFloat.lt : GoFloat → GoFloat → Bool
  | GoFloat.val a, GoFloat.val b => decide (a < b)
  | _, _ => false

/-- GoFloat.le is Go's `<=` on float64: false whenever either operand
is NaN. -/
def GoFloat.le : GoFloat → GoFloat → Bool
  | GoFloat.val a, GoFloat.val b => decide (a ≤ b)
  | _, _ => false

/-- GoFloat.ge is Go's `>=` on float64: false whenever either operand
is NaN. -/
def GoFloat.ge : GoFloat → GoFloat → Bool
  | GoFloat.val a, GoFloat.val b => decide (b ≤ a)
  | _, _ => false

/-- WithTTLJitter embeds the validation in `WithTTLJitter`:
`j < 0.0 || j >= 1.0` is rejected with ErrRegistrarJitter, anything
else — including NaN, for which both comparisons are false — is
accepted. -/
def WithTTLJitter (j : GoFloat) : Option String :=
  if GoFloat.lt j (GoFloat.val 0) || GoFloat.ge j (GoFloat.val 1) then
    some ErrRegistrarJitter
  else none

/-- u53 is the unit roundoff of IEEE-754 binary64 under round to
nearest: both the int64 → float64 conversion and float64
multiplication return a result within relative error u53 of the exact
value (and are exact when the exact value is representable). -/
def u53 : Rat := 1 / 2 ^ 53

/-- nextTimerInterval embeds the closure built by
`registrarCheck.nextTimer` for a TTL check with base interval
`interval` (nanoseconds) and the stored jitter: with `jitter > 0.0`
(false for NaN, which therefore applies no jitter), `rand.N` draws a
value in [0, m) with m = Duration(jitter * float64(interval)), and the
draw is subtracted from the base interval. The int64 → float64
conversion is the parameter `toF` and the float64 multiplication the
parameter `mulF` (both external IEEE-754 operations, constrained in the
theorems by the u53 round-to-nearest contract); the Duration conversion
truncates, which for the positive products here is `Int.floor`;
`sample m` supplies the draw. `rand.N` panics when m is not positive;
that case is `none`. -/
def nextTimerInterval (interval : Int) (jitter : GoFloat)
    (toF : Int → Rat) (mulF : Rat → Rat → Rat) (sample : Int → Int) :
    Option Int :=
  match jitter with
  | GoFloat.nan => some interval
  | GoFloat.val j =>
    if 0 < j then
      if Int.floor (mulF j (toF interval)) ≤ 0 then none
      else some (interval - sample (Int.floor (mulF j (toF interval))))
    else some interval

/-- toFCx instantiates the int64 → float64 conversion for the C9
counterexample: it is exact everywhere except at 2^62 + 768, which is
not representable in binary64 (the representable values at that
magnitude are the multiples of 2^10) and rounds to nearest as
2^62 + 1024 — distance 256 up versus 768 down, so no tie. -/
def toFCx : Int → Rat := fun b =>
  if b = 4611686018427388672 then ((4611686018427388928 : Int) : Rat)
  else (b : Rat)

/-- mulFCx instantiates float64 multiplication for the C9
counterexample as exact multiplication: the only product taken there,
(1/2) · (2^62 + 1024) = 2^61 + 512, is a multiple of 2^9 and hence
representable in binary64, so the real multiplication is exact at it. -/
def mulFCx : Rat → Rat → Rat := fun a b => a * b

/-! ## Concrete inputs for witnesses and counterexamples -/

/-- regC8 is a registration whose single check has TTL "0s" and no
identifier: a non-empty TTL field that parses to a zero duration. -/
def regC8 : AgentServiceRegistration :=
  { ID := "", Name := "s", Check := none,
    Checks := [{ CheckID := "", Name := "", TTL := "0s" }] }

/-- regC8W is a well-formed registration: one identified check with a
5s TTL. -/
def regC8W : AgentServiceRegistration :=
  { ID := "svc", Name := "", Check := none,
    Checks := [{ CheckID := "c1", Name := "", TTL := "5s" }] }

/-- sdEmpty is a minimal concrete service definition. -/
def sdEmpty : serviceDefinition := { id := "s", checkIDs := [], ttls := [] }

/-! ## Theorems -/

/-- C2: the claim (and the State doc comment) say the zero value of
State represents a Passing/healthy service; the code puts Any at iota 0
and Passing at 1, so the zero value's Status is Any, with string form
"any" — not "passing". The intended Passing default is instead applied
explicitly in newRegistrar, confirming the zero value semantics are a
slip. -/
theorem zero_state_status_is_any :
    State.zero.Status = Any ∧
    statusString State.zero.Status = "any" ∧
    statusString Passing = "passing" ∧
    statusString State.zero.Status ≠ "passing" := by
  refine ⟨rfl, ?_, ?_, ?_⟩ <;> decide

/-- C1: calling NewRegistrars with a nil Definitions bundle panics with
a nil-pointer dereference — the capacity expression definitions.len()
is evaluated before the nil guard is reached — instead of returning the
non-nil empty aggregate promised by the function's own doc comment. A
non-nil empty bundle does yield the empty aggregate with no error. -/
theorem newRegistrars_nil_bundle_panics
    (newReg : serviceDefinition → Except String registrar) :
    NewRegistrars newReg none = PanicOr.panic nilDerefMsg ∧
    NewRegistrars newReg (some { services := [] }) =
      PanicOr.ok (Except.ok []) :=
  ⟨rfl, rfl⟩

/-- C6: in the registered state, Deregister first cancels the heartbeat
context, then makes exactly one non-retried remote Deregister call,
transitions to unregistered regardless of that call's outcome, and
returns its error, if any, to the caller. -/
theorem deregister_cancels_then_single_call (r : registrar)
    (remote : Option String) (hr : r.registered = true) :
    registrar.deregister r remote =
      (remote, { r with registered := false },
       [DeregEvent.cancelTTLs, DeregEvent.remoteDeregister]) ∧
    (registrar.deregister r remote).2.2.count DeregEvent.remoteDeregister = 1 ∧
    (registrar.deregister r remote).2.1.registered = false := by
  have h : registrar.deregister r remote =
      (remote, { r with registered := false },
       [DeregEvent.cancelTTLs, DeregEvent.remoteDeregister]) := by
    simp [registrar.deregister, hr]
  exact ⟨h, by rw [h]; rfl, by rw [h]⟩

/-- C6 witness: the theorem applied to a concrete registered registrar
and a failing remote call. -/
theorem deregister_cancels_then_single_call_witness :
    registrar.deregister
        { health := State.zero, sdef := sdEmpty, registerRetry := 0,
          registered := true }
        (some "boom") =
      (some "boom",
       { health := State.zero, sdef := sdEmpty, registerRetry := 0,
         registered := false },
       [DeregEvent.cancelTTLs, DeregEvent.remoteDeregister]) :=
  (deregister_cancels_then_single_call
    { health := State.zero, sdef := sdEmpty, registerRetry := 0,
      registered := true }
    (some "boom") rfl).1

/-- C7: Register on an already registered registrar returns
ErrRegistrarRegistered with zero remote invocations, zero heartbeat
tasks and the registrar (registration status and health state)
unchanged; Deregister on an already deregistered registrar returns
ErrRegistrarDeregistered with no events and the registrar unchanged. -/
theorem lifecycle_misuse_is_inert (r₁ r₂ : registrar)
    (attempt : Nat → Option String) (ctxDone : Nat → Bool) (fuel : Nat)
    (remote : Option String)
    (h1 : r₁.registered = true) (h2 : r₂.registered = false) :
    registrar.register r₁ attempt ctxDone fuel =
      some (some ErrRegistrarRegistered, r₁, 0, 0) ∧
    registrar.deregister r₂ remote = (some ErrRegistrarDeregistered, r₂, []) := by
  constructor
  · simp [registrar.register, h1]
  · simp [registrar.deregister, h2]

/-- C7 witness: the theorem applied to concrete registrars in each
state. -/
theorem lifecycle_misuse_is_inert_witness :
    registrar.register
        { health := State.zero, sdef := sdEmpty, registerRetry := 0,
          registered := true }
        (fun _ => none) (fun _ => false) 3 =
      some (some ErrRegistrarRegistered,
            { health := State.zero, sdef := sdEmpty, registerRetry := 0,
              registered := true }, 0, 0) ∧
    registrar.deregister
        { health := State.zero, sdef := sdEmpty, registerRetry := 0,
          registered := false }
        none =
      (some ErrRegistrarDeregistered,
       { health := State.zero, sdef := sdEmpty, registerRetry := 0,
         registered := false }, []) :=
  lifecycle_misuse_is_inert
    { health := State.zero, sdef := sdEmpty, registerRetry := 0,
      registered := true }
    { health := State.zero, sdef := sdEmpty, registerRetry := 0,
      registered := false }
    (fun _ => none) (fun _ => false) 3 none rfl rfl

/-- C4 counterexample: a legal schedule on which the heartbeat context
is already cancelled when the heartbeat goroutine takes its first step
(Deregister ran to completion between the go statement and the task
being scheduled). The task still issues its unconditional update — one
UpdateTTLOpts invocation after cancellation — before observing
ctx.Err() and exiting, so "issues no update after cancellation" fails. -/
theorem ttl_update_after_cancel_counterexample :
    ttlRun (fun _ => true) (fun _ => true) 1 0 = [true] := rfl

/-- ttlRun_count_aux: against any schedule that cancels the context at
time cancelAt and any select resolution, the heartbeat trace contains
at most one update issued after cancellation (the unconditional update
at the top of the loop iteration in progress when cancellation lands;
the very next ctx.Err() check then terminates the task). -/
theorem ttlRun_count_aux (cancelAt : Nat) (selDone : Nat → Bool) :
    ∀ (fuel k : Nat),
      (ttlRun (fun t => decide (cancelAt ≤ t)) selDone fuel k).count true ≤ 1
  | 0, _ => by simp [ttlRun]
  | fuel + 1, k => by
    by_cases hc : cancelAt ≤ 3 * k
    · have hc1 : cancelAt ≤ 3 * k + 1 := by omega
      simp [ttlRun, hc, hc1]
    · have h0 : (decide (cancelAt ≤ 3 * k)) = false := by simp [hc]
      simp only [ttlRun, h0, List.count_cons]
      have htail :
          (if (decide (cancelAt ≤ 3 * k + 1)) = true then ([] : List Bool)
           else if (decide (cancelAt ≤ 3 * k + 2) && selDone k) = true then []
           else ttlRun (fun t => decide (cancelAt ≤ t)) selDone fuel (k + 1)).count
            true ≤ 1 := by
        split
        · simp
        · split
          · simp
          · exact ttlRun_count_aux cancelAt selDone fuel (k + 1)
      simpa using htail

/-- C4 amended: after Deregister cancels the heartbeat context
(signalled before its remote call, the first of its two ordered
actions), each heartbeat task issues at most one further UpdateTTLOpts
invocation — the unconditional update at the top of its loop — and then
exits; it is not guaranteed to issue none. -/
theorem heartbeat_cancel_amended :
    (∀ (cancelAt : Nat) (selDone : Nat → Bool) (fuel k : Nat),
       (ttlRun (fun t => decide (cancelAt ≤ t)) selDone fuel k).count true ≤ 1) ∧
    (∀ (h : State) (sdef : serviceDefinition) (retry : Int)
       (remote : Option String),
       registrar.deregister
           { health := h, sdef := sdef, registerRetry := retry,
             registered := true } remote =
         (remote,
          { health := h, sdef := sdef, registerRetry := retry,
            registered := false },
          [DeregEvent.cancelTTLs, DeregEvent.remoteDeregister])) :=
  ⟨ttlRun_count_aux, fun _ _ _ _ => rfl⟩

/-- registerLoop_succ_of_none: a successful attempt ends the retry loop
with one more invocation counted. -/
theorem registerLoop_succ_of_none (attempt : Nat → Option String)
    (ctxDone : Nat → Bool) (fuel k : Nat) (h : attempt k = none) :
    registerLoop attempt ctxDone (fuel + 1) k = some (RegOutcome.ok (k + 1)) := by
  simp [registerLoop, h]

/-- registerLoop_step: a failed attempt with the context not done waits
out the retry timer and continues the loop. -/
theorem registerLoop_step (attempt : Nat → Option String) (ctxDone : Nat → Bool)
    (fuel k : Nat) (e : String) (h : attempt k = some e)
    (hd : ctxDone k = false) :
    registerLoop attempt ctxDone (fuel + 1) k =
      registerLoop attempt ctxDone fuel (k + 1) := by
  simp [registerLoop, h, hd]

/-- registerLoop_cancel: a failed attempt with the context done returns
that attempt's error. -/
theorem registerLoop_cancel (attempt : Nat → Option String) (ctxDone : Nat → Bool)
    (fuel k : Nat) (e : String) (h : attempt k = some e)
    (hd : ctxDone k = true) :
    registerLoop attempt ctxDone (fuel + 1) k =
      some (RegOutcome.cancelled e (k + 1)) := by
  simp [registerLoop, h, hd]

/-- registerLoop_all_fail_then_ok: when the first n attempts from k fail
and attempt k+n succeeds, the un-cancelled loop ends successfully after
exactly k+n+1 invocations. -/
theorem registerLoop_all_fail_then_ok (a : Nat → Option String) (e : Nat → String) :
    ∀ (n k : Nat), (∀ i, i < n → a (k + i) = some (e (k + i))) → a (k + n) = none →
      registerLoop a (fun _ => false) (n + 1) k = some (RegOutcome.ok (k + n + 1)) := by
  intro n
  induction n with
  | zero =>
    intro k _ hk
    have := registerLoop_succ_of_none a (fun _ => false) 0 k (by simpa using hk)
    simpa using this
  | succ m ih =>
    intro k hfail hk
    have h0 : a k = some (e k) := by simpa using hfail 0 (Nat.succ_pos m)
    rw [registerLoop_step a (fun _ => false) (m + 1) k (e k) h0 rfl]
    have hfail' : ∀ i, i < m → a (k + 1 + i) = some (e (k + 1 + i)) := by
      intro i hi
      have := hfail (i + 1) (by omega)
      have hx : k + (i + 1) = k + 1 + i := by omega
      rwa [hx] at this
    have hk' : a (k + 1 + m) = none := by
      have hx : k + (m + 1) = k + 1 + m := by omega
      rwa [hx] at hk
    have := ih (k + 1) hfail' hk'
    have harith : k + 1 + m + 1 = k + (m + 1) + 1 := by omega
    rwa [harith] at this

/-- C3: a registrar in the unregistered state, driven by a remote
Register capability that fails on its first N invocations and succeeds
on the next, with a context that is never cancelled, registers
successfully after exactly N+1 invocations, spawning one heartbeat task
per TTL definition; the statement holds for every N, so there is no
maximum attempt count; and the retry wait between consecutive attempts,
as normalized by the constructor, is always non-negative. -/
theorem register_fails_then_succeeds (r : registrar) (N : Nat) (e : Nat → String)
    (hr : r.registered = false) :
    registrar.register r (fun i => if i < N then some (e i) else none)
        (fun _ => false) (N + 1) =
      some (none, { r with registered := true }, r.sdef.ttls.length, N + 1) ∧
    (∀ d : Int, 0 ≤ normalizeRegisterRetry d) := by
  constructor
  · have hloop := registerLoop_all_fail_then_ok
      (fun i => if i < N then some (e i) else none) e N 0
      (fun i hi => by simp [Nat.zero_add, hi]) (by simp)
    have h01 : (0 : Nat) + N + 1 = N + 1 := by omega
    rw [h01] at hloop
    simp [registrar.register, hr, hloop]
  · intro d
    unfold normalizeRegisterRetry DefaultRegisterRetry
    split <;> omega

/-- C3 witness: two failures then success, on a concrete registrar. -/
theorem register_fails_then_succeeds_witness :
    registrar.register
        { health := State.zero, sdef := sdEmpty, registerRetry := 5,
          registered := false }
        (fun i => if i < 2 then some "e" else none) (fun _ => false) 3 =
      some (none,
            { health := State.zero, sdef := sdEmpty, registerRetry := 5,
              registered := true },
            sdEmpty.ttls.length, 3) ∧
    (∀ d : Int, 0 ≤ normalizeRegisterRetry d) :=
  register_fails_then_succeeds
    { health := State.zero, sdef := sdEmpty, registerRetry := 5,
      registered := false }
    2 (fun _ => "e") rfl

/-- registerLoop_cancelled_last_error: when the first n attempts from k
fail with the context-done branch untaken, attempt k+n fails and the
done branch is then taken, the loop returns that last error after
exactly k+n+1 invocations. -/
theorem registerLoop_cancelled_last_error (a : Nat → Option String) (d : Nat → Bool) :
    ∀ (n k fuel : Nat), n < fuel →
      (∀ i, i < n → (a (k + i)).isSome = true) →
      (∀ i, i < n → d (k + i) = false) →
      ∀ e, a (k + n) = some e → d (k + n) = true →
      registerLoop a d fuel k = some (RegOutcome.cancelled e (k + n + 1)) := by
  intro n
  induction n with
  | zero =>
    intro k fuel hf _ _ e he hd
    obtain ⟨f, rfl⟩ : ∃ f, fuel = f + 1 := ⟨fuel - 1, by omega⟩
    have := registerLoop_cancel a d f k e (by simpa using he) (by simpa using hd)
    simpa using this
  | succ m ih =>
    intro k fuel hf hsome hdf e he hd
    obtain ⟨f, rfl⟩ : ∃ f, fuel = f + 1 := ⟨fuel - 1, by omega⟩
    have h0 : (a k).isSome = true := by simpa using hsome 0 (by omega)
    obtain ⟨e0, he0⟩ := Option.isSome_iff_exists.mp h0
    have hd0 : d k = false := by simpa using hdf 0 (by omega)
    rw [registerLoop_step a d f k e0 he0 hd0]
    have hsome' : ∀ i, i < m → (a (k + 1 + i)).isSome = true := by
      intro i hi
      have := hsome (i + 1) (by omega)
      have hx : k + (i + 1) = k + 1 + i := by omega
      rwa [hx] at this
    have hdf' : ∀ i, i < m → d (k + 1 + i) = false := by
      intro i hi
      have := hdf (i + 1) (by omega)
      have hx : k + (i + 1) = k + 1 + i := by omega
      rwa [hx] at this
    have he' : a (k + 1 + m) = some e := by
      have hx : k + (m + 1) = k + 1 + m := by omega
      rwa [hx] at he
    have hd' : d (k + 1 + m) = true := by
      have hx : k + (m + 1) = k + 1 + m := by omega
      rwa [hx] at hd
    have := ih (k + 1) f (by omega) hsome' hdf' e he' hd'
    have harith : k + 1 + m + 1 = k + (m + 1) + 1 := by omega
    rwa [harith] at this

/-- C5: when the caller's context is cancelled before any registration
attempt succeeds — the first k attempts fail with the retry timer
winning the select, attempt k fails and the done branch is then taken —
Register returns the error observed on that last failed attempt, the
registrar is returned unchanged (still unregistered, health intact),
and no heartbeat task is started. -/
theorem register_cancelled_before_success (r : registrar) (a : Nat → Option String)
    (d : Nat → Bool) (k fuel : Nat) (e : String)
    (hr : r.registered = false)
    (hfail : ∀ i, i < k → (a i).isSome = true)
    (hsel : ∀ i, i < k → d i = false)
    (hlast : a k = some e) (hdone : d k = true) (hfuel : k < fuel) :
    registrar.register r a d fuel = some (some e, r, 0, k + 1) := by
  have hloop := registerLoop_cancelled_last_error a d k 0 fuel hfuel
    (fun i hi => by simpa using hfail i hi)
    (fun i hi => by simpa using hsel i hi)
    e (by simpa using hlast) (by simpa using hdone)
  have hx : (0 : Nat) + k + 1 = k + 1 := by omega
  rw [hx] at hloop
  simp [registrar.register, hr, hloop]

/-- C5 witness: one failed attempt, then cancellation observed on the
second failed attempt; the second attempt's error is returned. -/
theorem register_cancelled_before_success_witness :
    registrar.register
        { health := State.zero, sdef := sdEmpty, registerRetry := 5,
          registered := false }
        (fun i => some (toString i)) (fun i => decide (1 ≤ i)) 2 =
      some (some "1",
            { health := State.zero, sdef := sdEmpty, registerRetry := 5,
              registered := false },
            0, 2) :=
  register_cancelled_before_success
    { health := State.zero, sdef := sdEmpty, registerRetry := 5,
      registered := false }
    (fun i => some (toString i)) (fun i => decide (1 ≤ i)) 1 2 "1" rfl
    (fun _ _ => rfl)
    (fun i hi => by
      have : i = 0 := by omega
      subst this
      rfl)
    rfl rfl (by omega)

/-- checkStep_split: processing one check only appends to the error
accumulator; the definition part does not depend on the errors so far. -/
theorem checkStep_split (pd : String → Option Int) (sd : serviceDefinition)
    (errs : List DefError) (c : AgentServiceCheck) :
    checkStep pd (sd, errs) c =
      ((checkStep pd (sd, []) c).1, errs ++ (checkStep pd (sd, []) c).2) := by
  simp only [checkStep]
  cases hp : parseCheckTTL pd c with
  | none => simp
  | some d =>
    dsimp only
    split_ifs <;> simp

/-- foldl_checkStep_errs: the check loop only appends errors, and the
definition it builds does not depend on the errors accumulated before
it started. -/
theorem foldl_checkStep_errs (pd : String → Option Int) :
    ∀ (cs : List AgentServiceCheck) (sd : serviceDefinition) (errs : List DefError),
      (cs.foldl (checkStep pd) (sd, errs)).2 =
        errs ++ (cs.foldl (checkStep pd) (sd, [])).2 ∧
      (cs.foldl (checkStep pd) (sd, errs)).1 =
        (cs.foldl (checkStep pd) (sd, [])).1 := by
  intro cs
  induction cs with
  | nil => intro sd errs; simp
  | cons c cs ih =>
    intro sd errs
    rcases hstep : checkStep pd (sd, []) c with ⟨s1, e1⟩
    have hsplit := checkStep_split pd sd errs c
    rw [hstep] at hsplit
    rw [List.foldl_cons, List.foldl_cons, hsplit, hstep]
    refine ⟨?_, ?_⟩
    · rw [(ih s1 (errs ++ e1)).1, (ih s1 e1).1, List.append_assoc]
    · rw [(ih s1 (errs ++ e1)).2, (ih s1 e1).2]

/-- checkStep_ttls: one check contributes exactly `ttlOf` to the TTL
definitions: a TTL definition appears iff the TTL parses to a positive
interval and the derived check id is non-empty. -/
theorem checkStep_ttls (pd : String → Option Int) (sd : serviceDefinition)
    (errs : List DefError) (c : AgentServiceCheck) :
    (checkStep pd (sd, errs) c).1.ttls = sd.ttls ++ (ttlOf pd c).toList := by
  simp only [checkStep, ttlOf]
  cases hp : parseCheckTTL pd c with
  | none => simp
  | some d =>
    dsimp only
    by_cases h1 : d < 0
    · have h2 : ¬(0 < d ∧ checkIDOf c ≠ "") := by
        intro hcon
        omega
      simp [h1, h2]
    · by_cases h3 : checkIDOf c = "" ∧ d = 0
      · have h2 : ¬(0 < d ∧ checkIDOf c ≠ "") := fun hcon => hcon.2 h3.1
        simp [h1, h3, h2]
      · by_cases h4 : checkIDOf c = "" ∧ 0 < d
        · have h2 : ¬(0 < d ∧ checkIDOf c ≠ "") := fun hcon => hcon.2 h4.1
          have hd0 : d ≠ 0 := by omega
          simp [h1, h3, h4, h2, hd0]
        · by_cases h5 : 0 < d
          · have hcid : checkIDOf c ≠ "" := fun hc => h4 ⟨hc, h5⟩
            simp [h1, h3, h4, h5, hcid]
          · have h2 : ¬(0 < d ∧ checkIDOf c ≠ "") := fun hcon => h5 hcon.1
            simp [h1, h3, h4, h5, h2]

/-- foldl_checkStep_ttls: across the whole check loop, the TTL
definitions are exactly the `ttlOf` images of the checks. -/
theorem foldl_checkStep_ttls (pd : String → Option Int) :
    ∀ (cs : List AgentServiceCheck) (sd : serviceDefinition) (errs : List DefError),
      (cs.foldl (checkStep pd) (sd, errs)).1.ttls =
        sd.ttls ++ cs.filterMap (ttlOf pd) := by
  intro cs
  induction cs with
  | nil => intro sd errs; simp
  | cons c cs ih =>
    intro sd errs
    rcases hstep : checkStep pd (sd, errs) c with ⟨s1, e1⟩
    have hts : s1.ttls = sd.ttls ++ (ttlOf pd c).toList := by
      have := checkStep_ttls pd sd errs c
      rwa [hstep] at this
    rw [List.foldl_cons, hstep, ih s1 e1, hts]
    cases h : ttlOf pd c <;> simp [h, List.filterMap_cons]

/-- ttlOf_some: any produced TTL definition has a non-empty id and a
strictly positive interval. -/
theorem ttlOf_some (pd : String → Option Int) (c : AgentServiceCheck)
    (t : ttlDefinition) (h : ttlOf pd c = some t) :
    t.id ≠ "" ∧ 0 < t.interval := by
  unfold ttlOf at h
  cases hp : parseCheckTTL pd c <;> rw [hp] at h <;> dsimp only at h
  · cases h
  · split_ifs at h with hcond
    · cases h
      exact ⟨hcond.2, hcond.1⟩

/-- nonEmptyCIDs_cons: unfolding lemma for the non-empty check ids of a
cons cell. -/
theorem nonEmptyCIDs_cons (c : AgentServiceCheck) (cs : List AgentServiceCheck) :
    nonEmptyCIDs (c :: cs) =
      if checkIDOf c = "" then nonEmptyCIDs cs
      else checkIDOf c :: nonEmptyCIDs cs := by
  simp only [nonEmptyCIDs, List.map_cons, List.filter_cons]
  split_ifs with h1 h2 <;> simp_all

/-- foldl_checkStep_ne_nil: an error already accumulated survives the
rest of the check loop: the final error list cannot be empty. -/
theorem foldl_checkStep_ne_nil (pd : String → Option Int)
    (cs : List AgentServiceCheck) (sd : serviceDefinition) (e : DefError)
    (errs : List DefError) (he : e ∈ errs) :
    (cs.foldl (checkStep pd) (sd, errs)).2 ≠ [] := by
  rw [(foldl_checkStep_errs pd cs sd errs).1]
  intro hcon
  rcases List.append_eq_nil.mp hcon with ⟨h1, -⟩
  rw [h1] at he
  cases he

/-- foldl_checkStep_errs_nil_iff: the check loop reports no error
exactly when every check is well formed (TTL parses, is non-negative,
and a positive interval has a non-empty id) and the non-empty derived
check ids are mutually distinct and fresh with respect to the ids
already recorded in the accumulator. -/
theorem foldl_checkStep_errs_nil_iff (pd : String → Option Int) :
    ∀ (cs : List AgentServiceCheck) (sd : serviceDefinition),
      (cs.foldl (checkStep pd) (sd, [])).2 = [] ↔
        ((∀ c ∈ cs, goodCheck pd c = true) ∧
         (nonEmptyCIDs cs).Nodup ∧
         ∀ x ∈ nonEmptyCIDs cs, x ∉ sd.checkIDs) := by
  intro cs
  induction cs with
  | nil => intro sd; simp [nonEmptyCIDs]
  | cons c cs ih =>
    intro sd
    rw [List.foldl_cons]
    cases hp : parseCheckTTL pd c with
    | none =>
      have hstep : checkStep pd (sd, []) c = (sd, [DefError.invalidTTL c.TTL]) := by
        simp [checkStep, hp]
      rw [hstep]
      constructor
      · intro h
        exact absurd h
          (foldl_checkStep_ne_nil pd cs sd (DefError.invalidTTL c.TTL) _ (by simp))
      · rintro ⟨hgood, -, -⟩
        have := hgood c (by simp)
        simp [goodCheck, hp] at this
    | some d =>
      by_cases h1 : d < 0
      · have hstep : checkStep pd (sd, []) c = (sd, [DefError.negativeTTL]) := by
          simp [checkStep, hp, h1]
        rw [hstep]
        constructor
        · intro h
          exact absurd h
            (foldl_checkStep_ne_nil pd cs sd DefError.negativeTTL _ (by simp))
        · rintro ⟨hgood, -, -⟩
          have := hgood c (by simp)
          simp [goodCheck, hp] at this
          omega
      · by_cases h3 : checkIDOf c = "" ∧ d = 0
        · have hstep : checkStep pd (sd, []) c = (sd, []) := by
            simp [checkStep, hp, h1, h3]
          have hgc : goodCheck pd c = true := by
            simp [goodCheck, hp]
            exact ⟨by omega, Or.inl (le_of_eq h3.2)⟩
          rw [hstep, ih sd, nonEmptyCIDs_cons]
          simp [h3.1, hgc]
        · by_cases h4 : checkIDOf c = "" ∧ 0 < d
          · have hd0 : d ≠ 0 := by
              have := h4.2
              omega
            have hstep : checkStep pd (sd, []) c = (sd, [DefError.ttlRequiresID]) := by
              simp [checkStep, hp, h1, h4.1, h4.2, hd0]
            rw [hstep]
            constructor
            · intro h
              exact absurd h
                (foldl_checkStep_ne_nil pd cs sd DefError.ttlRequiresID _ (by simp))
            · rintro ⟨hgood, -, -⟩
              have := hgood c (by simp)
              simp [goodCheck, hp] at this
              rcases this.2 with hle | hne
              · have := h4.2
                omega
              · exact absurd h4.1 hne
          · have hcid : checkIDOf c ≠ "" := by
              intro hc
              rcases lt_trichotomy d 0 with hlt | heq | hgt
              · exact h1 hlt
              · exact h3 ⟨hc, heq⟩
              · exact h4 ⟨hc, hgt⟩
            have hgc : goodCheck pd c = true := by
              simp [goodCheck, hp]
              exact ⟨by omega, Or.inr hcid⟩
            have hstep : checkStep pd (sd, []) c =
                ({ sd with
                    checkIDs := (addCheckID sd.checkIDs (checkIDOf c)).1,
                    ttls :=
                      if 0 < d then sd.ttls ++ [⟨checkIDOf c, d⟩]
                      else sd.ttls },
                 (addCheckID sd.checkIDs (checkIDOf c)).2) := by
              simp [checkStep, hp, h1, h3, h4]
            by_cases hmem : checkIDOf c ∈ sd.checkIDs
            · have hadd : addCheckID sd.checkIDs (checkIDOf c) =
                  (sd.checkIDs, [DefError.duplicateCheckID (checkIDOf c)]) := by
                simp [addCheckID, hmem]
              rw [hstep, hadd]
              constructor
              · intro h
                exact absurd h
                  (foldl_checkStep_ne_nil pd cs _
                    (DefError.duplicateCheckID (checkIDOf c)) _ (by simp))
              · rintro ⟨-, -, hsub⟩
                refine absurd hmem (hsub (checkIDOf c) ?_)
                rw [nonEmptyCIDs_cons]
                simp [hcid]
            · have hadd : addCheckID sd.checkIDs (checkIDOf c) =
                  (sd.checkIDs ++ [checkIDOf c], []) := by
                simp [addCheckID, hmem]
              rw [hstep, hadd]
              dsimp only
              rw [ih]
              dsimp only
              rw [nonEmptyCIDs_cons]
              simp only [hcid, if_neg]
              constructor
              · rintro ⟨hg, hnd, hsub⟩
                refine ⟨?_, ?_, ?_⟩
                · intro c' hc'
                  rcases List.mem_cons.mp hc' with rfl | hc'
                  · exact hgc
                  · exact hg c' hc'
                · refine List.nodup_cons.mpr ⟨?_, hnd⟩
                  intro hin
                  have := hsub _ hin
                  simp at this
                · intro x hx
                  rcases List.mem_cons.mp hx with rfl | hx
                  · exact hmem
                  · have := hsub x hx
                    simp at this
                    exact this.1
              · rintro ⟨hg, hnd, hsub⟩
                refine ⟨fun c' hc' => hg c' (List.mem_cons_of_mem c hc'),
                  (List.nodup_cons.mp hnd).2, ?_⟩
                intro x hx hcon
                rcases List.mem_append.mp hcon with hA | hB
                · exact hsub x (List.mem_cons_of_mem _ hx) hA
                · have hxc : x = checkIDOf c := by simpa using hB
                  subst hxc
                  exact (List.nodup_cons.mp hnd).1 hx

/-- mem_foldl_checkStep_errs: a check that unconditionally contributes
the error E contributes it to the final accumulated error list no
matter what the other checks do — violations are accumulated, not
short-circuited. -/
theorem mem_foldl_checkStep_errs (pd : String → Option Int) (E : DefError)
    (c : AgentServiceCheck)
    (hE : ∀ sd : serviceDefinition, E ∈ (checkStep pd (sd, []) c).2) :
    ∀ (cs : List AgentServiceCheck) (sd : serviceDefinition) (errs : List DefError),
      c ∈ cs → E ∈ (cs.foldl (checkStep pd) (sd, errs)).2 := by
  intro cs
  induction cs with
  | nil => intro sd errs h; cases h
  | cons a cs ih =>
    intro sd errs hmem
    rw [List.foldl_cons]
    rcases hstep : checkStep pd (sd, errs) a with ⟨s1, e1⟩
    rcases List.mem_cons.mp hmem with rfl | hmem'
    · have hsplit := checkStep_split pd sd errs c
      rw [hstep] at hsplit
      have he1 : e1 = errs ++ (checkStep pd (sd, []) c).2 :=
        congrArg Prod.snd hsplit
      have hEe1 : E ∈ e1 := by
        rw [he1]
        exact List.mem_append_right errs (hE sd)
      rw [(foldl_checkStep_errs pd cs s1 e1).1]
      exact List.mem_append_left _ hEe1
    · exact ih s1 e1 hmem'

/-- C8 amended: building a single service definition fails exactly when
the registration has neither id nor name, some check's TTL fails to
parse, some TTL parses negative, some check whose TTL parses to a
strictly positive interval has an empty derived CheckID, or two checks
share a non-empty derived CheckID (a check with empty derived id whose
TTL is empty or parses to exactly zero is silently skipped); moreover
each parse, negativity, or missing-TTL-id violation is individually
reported in the accumulated error list, as is a missing service
identifier — violations accumulate rather than short-circuit. -/
theorem build_single_definition_errors (pd : String → Option Int)
    (reg : AgentServiceRegistration) :
    ((newServiceRegistration pd reg).2 = [] ↔
      (serviceIDOf reg ≠ "" ∧
       (∀ c ∈ regChecks reg, goodCheck pd c = true) ∧
       (nonEmptyCIDs (regChecks reg)).Nodup)) ∧
    (∀ c ∈ regChecks reg, parseCheckTTL pd c = none →
       DefError.invalidTTL c.TTL ∈ (newServiceRegistration pd reg).2) ∧
    (∀ c ∈ regChecks reg, ∀ d : Int, parseCheckTTL pd c = some d → d < 0 →
       DefError.negativeTTL ∈ (newServiceRegistration pd reg).2) ∧
    (∀ c ∈ regChecks reg, ∀ d : Int, parseCheckTTL pd c = some d → 0 < d →
       checkIDOf c = "" →
       DefError.ttlRequiresID ∈ (newServiceRegistration pd reg).2) ∧
    (serviceIDOf reg = "" →
       DefError.missingServiceID ∈ (newServiceRegistration pd reg).2) := by
  refine ⟨?_, ?_, ?_, ?_, ?_⟩
  · unfold newServiceRegistration
    rw [(foldl_checkStep_errs pd (regChecks reg) _ _).1, List.append_eq_nil,
      foldl_checkStep_errs_nil_iff]
    constructor
    · rintro ⟨he0, hg, hnd, -⟩
      refine ⟨?_, hg, hnd⟩
      intro hsid
      rw [if_pos hsid] at he0
      cases he0
    · rintro ⟨hsid, hg, hnd⟩
      exact ⟨by rw [if_neg hsid], hg, hnd, by simp⟩
  · intro c hc hp
    unfold newServiceRegistration
    refine mem_foldl_checkStep_errs pd (DefError.invalidTTL c.TTL) c ?_
      (regChecks reg) _ _ hc
    intro sd
    simp [checkStep, hp]
  · intro c hc d hp hneg
    unfold newServiceRegistration
    refine mem_foldl_checkStep_errs pd DefError.negativeTTL c ?_
      (regChecks reg) _ _ hc
    intro sd
    simp [checkStep, hp, hneg]
  · intro c hc d hp hpos hcid
    unfold newServiceRegistration
    refine mem_foldl_checkStep_errs pd DefError.ttlRequiresID c ?_
      (regChecks reg) _ _ hc
    intro sd
    have hnneg : ¬ d < 0 := by omega
    have hd0 : ¬ d = 0 := by omega
    simp [checkStep, hp, hcid, hpos, hnneg, hd0]
  · intro hsid
    unfold newServiceRegistration
    rw [(foldl_checkStep_errs pd (regChecks reg) _ _).1, if_pos hsid]
    exact List.mem_append_left _ (by simp)

/-- C8 counterexample: the registration regC8 has a check with a
non-empty TTL field ("0s") and an empty derived CheckID — by the
claim's classification a TTL check missing its required identifier, so
the build should fail — yet the code parses "0s" to a zero interval,
classifies the check as non-TTL, skips it, and the build succeeds with
no error. -/
theorem build_ttl_zero_counterexample :
    (∃ c ∈ regChecks regC8, c.TTL ≠ "" ∧ checkIDOf c = "") ∧
    serviceIDOf regC8 ≠ "" ∧
    (newServiceRegistration samplePD regC8).2 = [] := by
  refine ⟨?_, ?_, ?_⟩ <;> decide

/-- C8 witness: the amended theorem applied to a concrete well-formed
registration, whose build is error free. -/
theorem build_single_definition_errors_witness :
    (newServiceRegistration samplePD regC8W).2 = [] :=
  (build_single_definition_errors samplePD regC8W).1.mpr (by decide)

/-- C10: every TTL definition a build produces (successful or not) has
a non-empty check id and a strictly positive interval; the TTL
definitions are exactly the checks whose TTL parses to a positive
interval with a non-empty derived id — so a check whose TTL string is
empty or parses to exactly zero contributes none — and a successful
registration spawns exactly one heartbeat task per TTL definition, so
such checks spawn no heartbeat task. -/
theorem ttl_definitions_invariant (pd : String → Option Int)
    (reg : AgentServiceRegistration) :
    ((newServiceRegistration pd reg).1.ttls =
      (regChecks reg).filterMap (ttlOf pd)) ∧
    (∀ t ∈ (newServiceRegistration pd reg).1.ttls, t.id ≠ "" ∧ 0 < t.interval) ∧
    (∀ (h : State) (sdef : serviceDefinition) (retry : Int)
       (ctxDone : Nat → Bool),
       registrar.register
           { health := h, sdef := sdef, registerRetry := retry,
             registered := false }
           (fun _ => none) ctxDone 1 =
         some (none,
               { health := h, sdef := sdef, registerRetry := retry,
                 registered := true },
               sdef.ttls.length, 1)) := by
  have hchar : (newServiceRegistration pd reg).1.ttls =
      (regChecks reg).filterMap (ttlOf pd) := by
    unfold newServiceRegistration
    rw [foldl_checkStep_ttls]
    simp
  refine ⟨hchar, ?_, ?_⟩
  · intro t ht
    rw [hchar] at ht
    rcases List.mem_filterMap.mp ht with ⟨c, -, hc⟩
    exact ttlOf_some pd c t hc
  · intro h sdef retry ctxDone
    simp [registrar.register, registerLoop]

/-- C10 witness: the characterization evaluated on a concrete
registration with one 5s TTL check. -/
theorem ttl_definitions_invariant_witness :
    (newServiceRegistration samplePD regC8W).1.ttls =
      [{ id := "c1", interval := 5000000000 }] :=
  ((ttl_definitions_invariant samplePD regC8W).1).trans (by decide)

/-- withTTLJitter_accepts_iff: the validation accepts exactly NaN —
for which both comparisons in `j < 0.0 || j >= 1.0` are false — and the
numeric jitters in [0, 1). -/
theorem withTTLJitter_accepts_iff (g : GoFloat) :
    WithTTLJitter g = none ↔
      (g = GoFloat.nan ∨ ∃ q : Rat, g = GoFloat.val q ∧ 0 ≤ q ∧ q < 1) := by
  cases g with
  | nan => simp [WithTTLJitter, GoFloat.lt, GoFloat.ge]
  | val q =>
    by_cases hq : q < 0 ∨ 1 ≤ q
    · have hcond : (GoFloat.lt (GoFloat.val q) (GoFloat.val 0) ||
          GoFloat.ge (GoFloat.val q) (GoFloat.val 1)) = true := by
        simp [GoFloat.lt, GoFloat.ge]
        exact hq
      refine iff_of_false (by simp [WithTTLJitter, hcond]) ?_
      rintro (hnan | ⟨q', hq', h0', h1'⟩)
      · exact GoFloat.noConfusion hnan
      · injection hq' with hqq
        subst hqq
        rcases hq with h | h
        · exact absurd h0' (not_le.mpr h)
        · exact absurd h1' (not_lt.mpr h)
    · push_neg at hq
      have hcond : (GoFloat.lt (GoFloat.val q) (GoFloat.val 0) ||
          GoFloat.ge (GoFloat.val q) (GoFloat.val 1)) = false := by
        simp [GoFloat.lt, GoFloat.ge]
        exact hq
      exact iff_of_true (by simp [WithTTLJitter, hcond])
        (Or.inr ⟨q, rfl, hq.1, hq.2⟩)

/-- withTTLJitter_error_iff: ErrRegistrarJitter is returned exactly for
the non-NaN jitters outside [0, 1). -/
theorem withTTLJitter_error_iff (g : GoFloat) :
    WithTTLJitter g = some ErrRegistrarJitter ↔
      ∃ q : Rat, g = GoFloat.val q ∧ (q < 0 ∨ 1 ≤ q) := by
  cases g with
  | nan => simp [WithTTLJitter, GoFloat.lt, GoFloat.ge]
  | val q =>
    by_cases hq : q < 0 ∨ 1 ≤ q
    · have hcond : (GoFloat.lt (GoFloat.val q) (GoFloat.val 0) ||
          GoFloat.ge (GoFloat.val q) (GoFloat.val 1)) = true := by
        simp [GoFloat.lt, GoFloat.ge]
        exact hq
      exact iff_of_true (by simp [WithTTLJitter, hcond]) ⟨q, rfl, hq⟩
    · push_neg at hq
      have hcond : (GoFloat.lt (GoFloat.val q) (GoFloat.val 0) ||
          GoFloat.ge (GoFloat.val q) (GoFloat.val 1)) = false := by
        simp [GoFloat.lt, GoFloat.ge]
        exact hq
      refine iff_of_false (by simp [WithTTLJitter, hcond]) ?_
      rintro ⟨q', hq', h⟩
      injection hq' with hqq
      subst hqq
      rcases h with h | h
      · exact absurd h (not_lt.mpr hq.1)
      · exact absurd h (not_le.mpr hq.2)

/-- nextTimerInterval_bound: for a numeric jitter 0 ≤ j < 1, a positive
base interval b, a conversion and a multiplication within the binary64
round-to-nearest error u53, and any rand.N draw, every produced
effective interval lies within [b − j·b·(1+u53)^2, b]; when the
rounding slack j·b·((1+u53)^2 − 1) is at most 1ns the exact lower bound
b − j·b also holds. -/
theorem nextTimerInterval_bound (j : Rat) (b : Int)
    (toF : Int → Rat) (mulF : Rat → Rat → Rat) (sample : Int → Int)
    (hb : 0 < b) (h0 : 0 ≤ j)
    (hconv : |toF b - (b : Rat)| ≤ u53 * (b : Rat))
    (hmul : |mulF j (toF b) - j * toF b| ≤ u53 * |j * toF b|)
    (hs : ∀ m : Int, 0 < m → 0 ≤ sample m ∧ sample m < m) :
    ∀ v : Int, nextTimerInterval b (GoFloat.val j) toF mulF sample = some v →
      ((b : Rat) - j * (b : Rat) * (1 + u53) ^ 2 ≤ (v : Rat) ∧ v ≤ b) ∧
      (j * (b : Rat) * ((1 + u53) ^ 2 - 1) ≤ 1 →
        (b : Rat) - j * (b : Rat) ≤ (v : Rat)) := by
  intro v hv
  unfold nextTimerInterval at hv
  dsimp only at hv
  split_ifs at hv with hjpos hm
  · injection hv with hv'
    push_neg at hm
    have hbq : (0 : Rat) < (b : Rat) := by exact_mod_cast hb
    have hu0 : (0 : Rat) ≤ u53 := by norm_num [u53]
    have hu1 : u53 < 1 := by norm_num [u53]
    have hTub : toF b ≤ (b : Rat) * (1 + u53) := by
      have := (abs_le.mp hconv).2
      nlinarith
    have hTpos : 0 < toF b := by
      have := (abs_le.mp hconv).1
      nlinarith
    have hjT : (0 : Rat) ≤ j * toF b := mul_nonneg h0 hTpos.le
    have hPub : mulF j (toF b) ≤ j * toF b * (1 + u53) := by
      have h2 := (abs_le.mp hmul).2
      rw [abs_of_nonneg hjT] at h2
      nlinarith
    have hmq : ((Int.floor (mulF j (toF b)) : Int) : Rat) ≤ mulF j (toF b) :=
      Int.floor_le _
    obtain ⟨hs0, hs1⟩ := hs _ hm
    have hsq : ((sample (Int.floor (mulF j (toF b))) : Int) : Rat) + 1 ≤
        ((Int.floor (mulF j (toF b)) : Int) : Rat) := by
      exact_mod_cast hs1
    have hchain : ((sample (Int.floor (mulF j (toF b))) : Int) : Rat) ≤
        j * (b : Rat) * (1 + u53) ^ 2 - 1 := by
      have hstep : j * toF b * (1 + u53) ≤
          j * ((b : Rat) * (1 + u53)) * (1 + u53) := by
        have h1u : (0 : Rat) ≤ 1 + u53 := by linarith
        have hjTb : j * toF b ≤ j * ((b : Rat) * (1 + u53)) :=
          mul_le_mul_of_nonneg_left hTub h0
        exact mul_le_mul_of_nonneg_right hjTb h1u
      nlinarith
    constructor
    · constructor
      · rw [← hv']
        push_cast
        linarith
      · rw [← hv']
        have : 0 ≤ sample (Int.floor (mulF j (toF b))) := hs0
        omega
    · intro hsmall
      rw [← hv']
      push_cast
      linarith
  · injection hv with hv'
    have hj0 : j = 0 := le_antisymm (not_lt.mp hjpos) h0
    rw [← hv', hj0]
    norm_num

/-- C9 counterexample: the claim fails on the program in two ways.
First, the validation accepts a NaN jitter — `j < 0.0` and `j >= 1.0`
are both false for NaN — although `0.0 <= j` is also false for NaN, so
"accepted if and only if 0.0 <= j < 1.0" is wrong. Second, with jitter
1/2 and base interval b = 2^62 + 768 ns (about 146 years, a legal
time.Duration), the int64 → float64 conversion rounds b up to
2^62 + 1024 (the representable neighbours are 2^62 and 2^62 + 1024, at
distances 768 and 256), the product (1/2)·(2^62+1024) = 2^61 + 512 is
representable and hence exact, and the draw m − 1 yields the effective
interval 2^61 + 257 ns — strictly below b − j·b = 2^61 + 384 ns. The
last two conjuncts certify that this instantiation respects the
binary64 round-to-nearest contract. -/
theorem ttl_jitter_counterexample :
    (WithTTLJitter GoFloat.nan = none ∧
     GoFloat.le (GoFloat.val 0) GoFloat.nan = false ∧
     GoFloat.lt GoFloat.nan (GoFloat.val 1) = false) ∧
    (nextTimerInterval 4611686018427388672 (GoFloat.val (1 / 2)) toFCx mulFCx
        (fun m => m - 1) = some 2305843009213694209 ∧
     ((2305843009213694209 : Int) : Rat) <
       ((4611686018427388672 : Int) : Rat) -
         (1 / 2) * ((4611686018427388672 : Int) : Rat) ∧
     |toFCx 4611686018427388672 - ((4611686018427388672 : Int) : Rat)| ≤
       u53 * ((4611686018427388672 : Int) : Rat) ∧
     mulFCx (1 / 2) (toFCx 4611686018427388672) =
       (1 / 2) * toFCx 4611686018427388672) := by
  refine ⟨⟨rfl, rfl, rfl⟩, ?_, ?_, ?_, rfl⟩
  · norm_num [nextTimerInterval, toFCx, mulFCx]
  · norm_num
  · norm_num [toFCx, u53]

/-- C9 amended: the validation accepts a jitter exactly when it is NaN
— which slips through `j < 0.0 || j >= 1.0` and later applies no
jitter, since `jitter > 0.0` is also false for NaN — or a numeric value
in [0, 1), and returns ErrRegistrarJitter exactly for a numeric value
outside [0, 1). For an accepted numeric jitter j, a positive base
interval b, any int64 → float64 conversion and float64 multiplication
within the binary64 round-to-nearest relative error u53 = 2^-53, and
any rand.N draw, every produced effective interval lies within
[b − j·b·(1+u53)^2, b]; whenever the rounding slack
j·b·((1+u53)^2 − 1) is at most 1ns — every base interval up to roughly
52 days — it lies within the originally claimed [b − j·b, b]. -/
theorem ttl_jitter_validated_and_bounded (j : Rat) (b : Int)
    (toF : Int → Rat) (mulF : Rat → Rat → Rat) (sample : Int → Int)
    (hb : 0 < b) (h0 : 0 ≤ j) (_h1 : j < 1)
    (hconv : |toF b - (b : Rat)| ≤ u53 * (b : Rat))
    (hmul : |mulF j (toF b) - j * toF b| ≤ u53 * |j * toF b|)
    (hs : ∀ m : Int, 0 < m → 0 ≤ sample m ∧ sample m < m) :
    (∀ g : GoFloat, WithTTLJitter g = none ↔
       (g = GoFloat.nan ∨ ∃ q : Rat, g = GoFloat.val q ∧ 0 ≤ q ∧ q < 1)) ∧
    (∀ g : GoFloat, WithTTLJitter g = some ErrRegistrarJitter ↔
       ∃ q : Rat, g = GoFloat.val q ∧ (q < 0 ∨ 1 ≤ q)) ∧
    (∀ b' : Int, nextTimerInterval b' GoFloat.nan toF mulF sample = some b') ∧
    (∀ v : Int, nextTimerInterval b (GoFloat.val j) toF mulF sample = some v →
       ((b : Rat) - j * (b : Rat) * (1 + u53) ^ 2 ≤ (v : Rat) ∧ v ≤ b) ∧
       (j * (b : Rat) * ((1 + u53) ^ 2 - 1) ≤ 1 →
         (b : Rat) - j * (b : Rat) ≤ (v : Rat))) :=
  ⟨withTTLJitter_accepts_iff, withTTLJitter_error_iff, fun _ => rfl,
   nextTimerInterval_bound j b toF mulF sample hb h0 hconv hmul hs⟩

/-- C9 witness: jitter 1/2 and base interval 10s (in nanoseconds),
where conversion and multiplication are exact (both values are
representable, satisfying the contract with zero error) and the
rounding slack is far below 1ns: the jitter is accepted and the largest
possible draw yields the effective interval 5000000001ns, within
[5s, 10s]. -/
theorem ttl_jitter_validated_and_bounded_witness :
    WithTTLJitter (GoFloat.val (1 / 2)) = none ∧
    ((10000000000 : Int) : Rat) - (1 / 2) * ((10000000000 : Int) : Rat) ≤
        ((5000000001 : Int) : Rat) ∧
    (5000000001 : Int) ≤ (10000000000 : Int) := by
  have h := ttl_jitter_validated_and_bounded (1 / 2) 10000000000
    (fun b => (b : Rat)) (fun a b => a * b) (fun m => m - 1)
    (by norm_num) (by norm_num) (by norm_num)
    (by show |((10000000000 : Int) : Rat) - ((10000000000 : Int) : Rat)| ≤
          u53 * ((10000000000 : Int) : Rat)
        norm_num [u53])
    (by show |(1 / 2 : Rat) * ((10000000000 : Int) : Rat) -
          (1 / 2 : Rat) * ((10000000000 : Int) : Rat)| ≤
          u53 * |(1 / 2 : Rat) * ((10000000000 : Int) : Rat)|
        norm_num [u53])
    (fun m hm => ⟨by show 0 ≤ m - 1; omega, by show m - 1 < m; omega⟩)
  have hv := h.2.2.2 5000000001 (by norm_num [nextTimerInterval])
  exact ⟨(h.1 (GoFloat.val (1 / 2))).mpr
      (Or.inr ⟨1 / 2, rfl, by norm_num, by norm_num⟩),
    hv.2 (by norm_num [u53]), hv.1.2⟩

end Praetor
